import Mathlib

/-
  A shallow embedding of `libs/documenter.py`: a lexical model of
  `pathlib.Path`, an explicit filesystem, and the `Source`, `SourceFile`,
  `Component`, `SourceDoc` and `SourceDirectory` operations, followed by
  theorems about the behaviour of those operations.
-/

namespace Documenter

/-- Python exception classes distinguished by this development. -/
inductive PyErr where
  | valueError
  | typeError
  | osError
deriving DecidableEq

/-- Lexical model of `pathlib.PurePosixPath`: an absolute-path flag plus the
list of path components.  `pathlib` drops empty and `.` components, keeps
`..` components, and its `/` and `is_relative_to` are purely lexical. -/
structure PyPath where
  absolute : Bool
  parts : List String
deriving DecidableEq

/-- Splits a character list on `/`, keeping the chunks between separators. -/
def splitSlash : List Char → List (List Char)
  | [] => [[]]
  | c :: rest =>
    if c = '/' then [] :: splitSlash rest
    else
      match splitSlash rest with
      | [] => [[c]]
      | g :: gs => (c :: g) :: gs

/-- `pathlib.Path(s)` applied to a string: a leading `/` makes the path
absolute; empty and `.` components are dropped, `..` components are kept. -/
def parsePath (s : List Char) : PyPath :=
  { absolute := decide (s.head? = some '/'),
    parts := ((splitSlash s).filter (fun g => decide (g ≠ [] ∧ g ≠ ['.']))).map String.mk }

/-- `p / q` on paths: an absolute right operand replaces the left one. -/
def PyPath.join (p q : PyPath) : PyPath :=
  if q.absolute then q else ⟨p.absolute, p.parts ++ q.parts⟩

/-- `p / "name"` for a single plain component. -/
def PyPath.child (p : PyPath) (n : String) : PyPath :=
  ⟨p.absolute, p.parts ++ [n]⟩

/-- Index of the last `.` in a single component, if any. -/
def lastDotIdx : List Char → Option Nat
  | [] => none
  | c :: rest =>
    match lastDotIdx rest with
    | some i => some (i + 1)
    | none => if c = '.' then some 0 else none

/-- `PurePath.suffix` of a single file name: the part from the last dot on,
empty when the dot is leading, trailing or missing. -/
def suffixOfName (name : List Char) : List Char :=
  match lastDotIdx name with
  | some i => if 0 < i ∧ i < name.length - 1 then name.drop i else []
  | none => []

/-- `PurePath.with_suffix` applied to a single file name: replaces the old
suffix when there is one, appends the new suffix otherwise. -/
def withSuffixName (name suf : List Char) : List Char :=
  let old := suffixOfName name
  if old.isEmpty then name ++ suf
  else name.take (name.length - old.length) ++ suf

/-- The `suffix` of a path (of its last component; `""` for an empty path). -/
def PyPath.suffix (p : PyPath) : String :=
  match p.parts.getLast? with
  | none => ""
  | some lastPart => String.mk (suffixOfName lastPart.data)

/-- `with_suffix` on a path.  The uses in this code never reach the
empty-name `ValueError` case, which is modelled as the identity. -/
def PyPath.withSuffix (p : PyPath) (suf : String) : PyPath :=
  match p.parts.getLast? with
  | none => p
  | some lastPart =>
    ⟨p.absolute, p.parts.dropLast ++ [String.mk (withSuffixName lastPart.data suf.data)]⟩

/-- `PurePath.is_relative_to`: a purely lexical anchor-and-components
prefix test, with no resolution of `..` components. -/
def PyPath.isRelativeTo (p root : PyPath) : Bool :=
  (p.absolute == root.absolute) && root.parts.isPrefixOf p.parts

/-- An explicit filesystem: the (normalized) paths of the regular files, the
paths of the directories, and the text contents of the readable files. -/
structure FS where
  files : List PyPath
  dirs : List PyPath
  contents : List (PyPath × String)
deriving DecidableEq

/-- `Path.is_file`. -/
def FS.isFile (fs : FS) (p : PyPath) : Bool := decide (p ∈ fs.files)

/-- `Path.is_dir`. -/
def FS.isDir (fs : FS) (p : PyPath) : Bool := decide (p ∈ fs.dirs)

/-- `Path.exists`. -/
def FS.path_exists (fs : FS) (p : PyPath) : Bool := fs.isFile p || fs.isDir p

/-- `Path.read_text`, as an `Option` for the readable files. -/
def FS.readText (fs : FS) (p : PyPath) : Option String :=
  (fs.contents.find? (fun e => e.1 == p)).map Prod.snd

/-- `Path.glob("**/*")`: every filesystem entry strictly below `root`. -/
def FS.glob (fs : FS) (root : PyPath) : List PyPath :=
  (fs.files ++ fs.dirs).filter (fun p => p.isRelativeTo root && decide (p ≠ root))

/-- `VALID_DOC_TYPES`. -/
def VALID_DOC_TYPES : List String := ["python", "rfw"]

/-- `SOURCE_LANGUAGES`. -/
def SOURCE_LANGUAGES : List (String × String) :=
  [(".py", "python"), (".robot", "rfw"), (".resource", "rfw")]

/-- ASCII model of `str.lower` on one character. -/
def lowerChar (c : Char) : Char :=
  if 'A' ≤ c ∧ c ≤ 'Z' then Char.ofNat (c.toNat + 32) else c

/-- ASCII model of `str.lower`. -/
def strLower (s : String) : String := String.mk (s.data.map lowerChar)

/-- The state built by `Source.__init__`. -/
structure Source where
  path : PyPath
  documentation_type : String
deriving DecidableEq

/-- `Source.__init__`: validates a provided `documentation_type` against
`VALID_DOC_TYPES` case-insensitively (raising `ValueError` otherwise),
defaults a missing value to `"rfw"`, then builds `Path(*args, **kwargs)`;
`pathlib.Path` accepts and silently ignores keyword arguments on the Python
versions this code runs under (silent through 3.11, deprecation-warning only
in 3.12 and 3.13), so an extra keyword argument such as
`documentation_format` has no effect on the constructed state. -/
def Source.init (pathArg : PyPath) (documentation_type : Option String)
    (_pathKwargs : List (String × String)) : Except PyErr Source :=
  match documentation_type with
  | some t =>
    if strLower t ∈ VALID_DOC_TYPES then .ok ⟨pathArg, t⟩
    else .error .valueError
  | none => .ok ⟨pathArg, "rfw"⟩

/-- The state of a `SourceFile`: its path and the `_content` cache. -/
structure SourceFile where
  path : PyPath
  documentation_type : String
  content? : Option String
deriving DecidableEq

/-- `SourceFile.content`: reads the text from disk on the first access,
stores it in `_content`, and returns the stored text on every access. -/
def SourceFile.content (sf : SourceFile) (fs : FS) : Except PyErr (String × SourceFile) :=
  match sf.content? with
  | some c => .ok (c, sf)
  | none =>
    match fs.readText sf.path with
    | some txt => .ok (txt, { sf with content? := some txt })
    | none => .error .osError

/-- The state of a `Component` (its `target_path`, unused by any claim, is
omitted). -/
structure Component where
  path : PyPath
  documentation_type : String
  content? : Option String
deriving DecidableEq

/-- Field extraction of Python's `string.Formatter().parse` followed by the
`if fname` filter: `{{` and `}}` are escapes, a replacement field runs to the
next `}`, its field name stops at `:` or `!`, and empty names are dropped.
The fuel argument only drives the recursion; every step consumes at least one
character, so `length` fuel is always enough. -/
def formatFieldNamesAux : Nat → List Char → List String
  | 0, _ => []
  | _ + 1, [] => []
  | fuel + 1, '{' :: '{' :: rest => formatFieldNamesAux fuel rest
  | fuel + 1, '}' :: '}' :: rest => formatFieldNamesAux fuel rest
  | fuel + 1, '{' :: rest =>
    let field := rest.takeWhile (fun c => decide (c ≠ '}'))
    let fname := field.takeWhile (fun c => decide (c ≠ ':' ∧ c ≠ '!'))
    let after := (rest.dropWhile (fun c => decide (c ≠ '}'))).drop 1
    if fname.isEmpty then formatFieldNamesAux fuel after
    else String.mk fname :: formatFieldNamesAux fuel after
  | fuel + 1, _ :: rest => formatFieldNamesAux fuel rest

/-- The placeholder names of a format template (what a working
`get_template_fields` would compute). -/
def formatFieldNames (cs : List Char) : List String :=
  formatFieldNamesAux cs.length cs

/-- `Component.get_template_fields`: the source evaluates
`Formatter.parse(self._content)` — an unbound call that passes the content as
the `self` parameter and omits `format_string` — so every call raises
`TypeError` before any parsing happens. -/
def Component.get_template_fields (_c : Component) : Except PyErr (List String) :=
  .error .typeError

/-- The state of a `SourceDoc` relevant to the directory operations. -/
structure SourceDoc where
  path : PyPath
  documentation_type : String
deriving DecidableEq

/-- The state of a `SourceDirectory`: its path, its (validated)
`documentation_type`, and the `_source_files` working list (`none` before the
lazy load). -/
structure SourceDirectory where
  path : PyPath
  documentation_type : String
  source_files? : Option (List SourceDoc)
deriving DecidableEq

/-- A `name` argument: a Python `str` (as its characters) or a `Path`. -/
inductive NameArg where
  | str (s : List Char)
  | path (p : PyPath)
deriving DecidableEq

/-- `Path(name)` applied to a name argument. -/
def NameArg.toPath : NameArg → PyPath
  | .str s => parsePath s
  | .path p => p

/-- `SourceDirectory._get_init_path_for_dir`. -/
def get_init_path_for_dir (fs : FS) (dirPath : PyPath) : PyPath :=
  let python_path := dirPath.child "__init__.py"
  let robot_path := dirPath.child "__init__.robot"
  if fs.path_exists python_path then python_path
  else if fs.path_exists robot_path then robot_path
  else dirPath

/-- `name.replace(".", "/", count)` with `count = name.count(".")`: every
dot becomes a separator. -/
def replaceDots (s : List Char) : List Char :=
  s.map fun c => if c = '.' then '/' else c

/-- `SourceDirectory.convert_name_to_path` on a `str` argument.  The `none`
result is Python's implicit `None` fall-through, reached when a dotted name
exists in none of its three candidate forms. -/
def convert_name_str (root : PyPath) (fs : FS) : List Char → Option PyPath
  | [] =>
    let possible_path := root.join (parsePath [])
    if fs.isDir possible_path then some (get_init_path_for_dir fs possible_path)
    else some possible_path
  | c :: rest =>
    if 0 < (c :: rest).count '.' then
      if c = '.' then convert_name_str root fs rest
      else
        let possible_path := root.join (parsePath (replaceDots (c :: rest)))
        if fs.path_exists possible_path then some possible_path
        else if fs.path_exists (possible_path.withSuffix ".py") then
          some (possible_path.withSuffix ".py")
        else if fs.path_exists (possible_path.withSuffix ".robot") then
          some (possible_path.withSuffix ".robot")
        else none
    else
      let possible_path := root.join (parsePath (c :: rest))
      if fs.isDir possible_path then some (get_init_path_for_dir fs possible_path)
      else some possible_path

/-- `SourceDirectory.convert_name_to_path`: a `Path` argument is returned
unchanged. -/
def convert_name_to_path (root : PyPath) (fs : FS) : NameArg → Option PyPath
  | .path p => some p
  | .str s => convert_name_str root fs s

/-- The three candidate paths a dotted name is tried as, in order: the
candidate as-is, with the `.py` suffix, then with the `.robot` suffix. -/
def dotted_candidates (root : PyPath) (s : List Char) : List PyPath :=
  let possible_path := root.join (parsePath (replaceDots s))
  [possible_path, possible_path.withSuffix ".py", possible_path.withSuffix ".robot"]

/-- `SourceDirectory._create_source_doc`.  `SourceDoc(p)` leaves
`documentation_type` at its `"rfw"` default; `SourceDoc(None)` — reached when
`convert_name_to_path` returned `None` — raises `TypeError` inside
`Path(None)`. -/
def SourceDirectory.create_source_doc (sd : SourceDirectory) (fs : FS)
    (name : NameArg) : Except PyErr SourceDoc :=
  let new_path := sd.path.join name.toPath
  if new_path.isRelativeTo sd.path = false then .error .valueError
  else if fs.path_exists new_path = false then
    match convert_name_to_path sd.path fs name with
    | none => .error .typeError
    | some p => .ok ⟨p, "rfw"⟩
  else if fs.isDir new_path then .ok ⟨get_init_path_for_dir fs new_path, "rfw"⟩
  else .ok ⟨new_path, "rfw"⟩

/-- `SourceDirectory.load_source_file`: appends the resolved doc to the
working list whenever its path is a file (initializing the list if it was
never loaded); the lazy glob is not triggered here. -/
def SourceDirectory.load_source_file (sd : SourceDirectory) (fs : FS)
    (name : NameArg) : Except PyErr SourceDirectory :=
  match sd.create_source_doc fs name with
  | .error e => .error e
  | .ok d =>
    if fs.isFile d.path then
      match sd.source_files? with
      | none => .ok ⟨sd.path, sd.documentation_type, some [d]⟩
      | some l => .ok ⟨sd.path, sd.documentation_type, some (l ++ [d])⟩
    else .ok sd

/-- The value of the `source_files` property: the stored working list, or on
first access the glob of the directory filtered to the recognized
suffixes. -/
def SourceDirectory.source_files_list (sd : SourceDirectory) (fs : FS) : List SourceDoc :=
  match sd.source_files? with
  | some l => l
  | none =>
    ((fs.glob sd.path).filter
        (fun p => decide (p.suffix ∈ SOURCE_LANGUAGES.map Prod.fst))).map
      (fun p => ⟨p, sd.documentation_type⟩)

/-- `list.remove(doc)` where `Source.__eq__` compares paths: removes the
first element whose path equals `p`; `remove` on a missing path raises
`ValueError`, which `exclude_source_file` catches and logs, so the model is
the identity there. -/
def erasePath : List SourceDoc → PyPath → List SourceDoc
  | [], _ => []
  | x :: xs, p => if x.path = p then xs else x :: erasePath xs p

/-- The removal loop of `exclude_source_file`: one `remove` per listed doc. -/
def removeAll (l rs : List SourceDoc) : List SourceDoc :=
  rs.foldl (fun acc f => erasePath acc f.path) l

/-- `SourceDirectory.exclude_source_file`: resolves the name, materializes
the working list, removes the doc itself when its path is a file, every
working doc under it when it is a directory, and nothing otherwise. -/
def SourceDirectory.exclude_source_file (sd : SourceDirectory) (fs : FS)
    (name : NameArg) : Except PyErr SourceDirectory :=
  match sd.create_source_doc fs name with
  | .error e => .error e
  | .ok d =>
    let source_files := sd.source_files_list fs
    let files_to_remove :=
      if fs.isFile d.path then [d]
      else if fs.isDir d.path then
        source_files.filter (fun f => f.path.isRelativeTo d.path)
      else []
    .ok ⟨sd.path, sd.documentation_type, some (removeAll source_files files_to_remove)⟩

/-- The number of working docs whose path is `p`. -/
def pathCount : List SourceDoc → PyPath → Nat
  | [], _ => 0
  | x :: xs, p => (if x.path = p then 1 else 0) + pathCount xs p

/-- The state after a successful `exclude_source_file` resolving to `d`. -/
def SourceDirectory.exclude_result (sd : SourceDirectory) (fs : FS) (d : SourceDoc) :
    SourceDirectory :=
  ⟨sd.path, sd.documentation_type, some (
    if fs.isFile d.path then erasePath (sd.source_files_list fs) d.path
    else if fs.isDir d.path then
      (sd.source_files_list fs).filter (fun f => !(f.path.isRelativeTo d.path))
    else sd.source_files_list fs)⟩

theorem removeAll_nil (l : List SourceDoc) : removeAll l [] = l := rfl

theorem removeAll_cons (l : List SourceDoc) (r : SourceDoc) (rs : List SourceDoc) :
    removeAll l (r :: rs) = removeAll (erasePath l r.path) rs := rfl

/-- A doc lying outside the excluded directory is untouched by the removal
loop when everything scheduled for removal lies inside it. -/
theorem removeAll_outside (x : SourceDoc) (xs rs : List SourceDoc) (dp : PyPath)
    (hx : x.path.isRelativeTo dp = false)
    (hrs : ∀ f ∈ rs, f.path.isRelativeTo dp = true) :
    removeAll (x :: xs) rs = x :: removeAll xs rs := by
  induction rs generalizing xs with
  | nil => rfl
  | cons r rs ih =>
    have hr : r.path.isRelativeTo dp = true := hrs r (by simp)
    have hne : x.path ≠ r.path := by
      intro hEq
      rw [hEq, hr] at hx
      exact Bool.noConfusion hx
    rw [removeAll_cons, removeAll_cons, erasePath, if_neg hne]
    exact ih (erasePath xs r.path) (fun f hf => hrs f (by simp [hf]))

/-- The removal loop over the docs under a directory leaves exactly the docs
outside it. -/
theorem removeAll_filter_under (l : List SourceDoc) (dp : PyPath) :
    removeAll l (l.filter (fun f => f.path.isRelativeTo dp)) =
      l.filter (fun f => !(f.path.isRelativeTo dp)) := by
  induction l with
  | nil => rfl
  | cons x xs ih =>
    cases hx : x.path.isRelativeTo dp with
    | true =>
      rw [List.filter_cons_of_pos (by simp [hx]), removeAll_cons, erasePath, if_pos rfl, ih,
        List.filter_cons_of_neg (by simp [hx])]
    | false =>
      rw [List.filter_cons_of_neg (by simp [hx]),
        removeAll_outside x xs _ dp hx (fun f hf => (List.mem_filter.mp hf).2), ih,
        List.filter_cons_of_pos (by simp [hx])]

theorem not_mem_path_of_pathCount_zero (l : List SourceDoc) (p : PyPath)
    (h : pathCount l p = 0) : ∀ f ∈ l, f.path ≠ p := by
  induction l with
  | nil => intro f hf; cases hf
  | cons x xs ih =>
    by_cases hx : x.path = p
    · rw [pathCount, if_pos hx] at h
      exact absurd h (by omega)
    · rw [pathCount, if_neg hx, Nat.zero_add] at h
      intro f hf
      rcases List.mem_cons.mp hf with hfx | hfxs
      · rw [hfx]; exact hx
      · exact ih h f hfxs

theorem erasePath_of_forall (l : List SourceDoc) (p : PyPath)
    (h : ∀ f ∈ l, f.path ≠ p) : erasePath l p = l := by
  induction l with
  | nil => rfl
  | cons x xs ih =>
    rw [erasePath, if_neg (h x (by simp)), ih (fun f hf => h f (by simp [hf]))]

theorem erasePath_of_pathCount_zero (l : List SourceDoc) (p : PyPath)
    (h : pathCount l p = 0) : erasePath l p = l :=
  erasePath_of_forall l p (not_mem_path_of_pathCount_zero l p h)

theorem pathCount_erasePath (l : List SourceDoc) (p : PyPath) :
    pathCount (erasePath l p) p = pathCount l p - 1 := by
  induction l with
  | nil => rfl
  | cons x xs ih =>
    by_cases hx : x.path = p
    · rw [erasePath, if_pos hx, pathCount, if_pos hx]
      omega
    · rw [erasePath, if_neg hx]
      simp only [pathCount]
      rw [if_neg hx, ih]
      omega

/-- After one `remove` of the only occurrence of a path, no doc with that
path remains. -/
theorem erasePath_no_path (l : List SourceDoc) (p : PyPath)
    (h : pathCount l p ≤ 1) : ∀ f ∈ erasePath l p, f.path ≠ p := by
  refine not_mem_path_of_pathCount_zero _ _ ?_
  rw [pathCount_erasePath]
  omega

/-- `_create_source_doc` only reads the directory's path, never its working
list or documentation type. -/
theorem create_source_doc_path_only (p : PyPath) (t₁ t₂ : String)
    (o₁ o₂ : Option (List SourceDoc)) (fs : FS) (name : NameArg) :
    SourceDirectory.create_source_doc ⟨p, t₁, o₁⟩ fs name =
      SourceDirectory.create_source_doc ⟨p, t₂, o₂⟩ fs name := rfl

/-- `_create_source_doc` raises `ValueError` exactly when the joined path is
not lexically contained in the source root. -/
theorem create_valueError_iff (sd : SourceDirectory) (fs : FS) (name : NameArg) :
    sd.create_source_doc fs name = .error .valueError ↔
      (sd.path.join name.toPath).isRelativeTo sd.path = false := by
  cases hrel : (sd.path.join name.toPath).isRelativeTo sd.path with
  | false => simp [SourceDirectory.create_source_doc, hrel]
  | true =>
    simp only [SourceDirectory.create_source_doc, hrel]
    cases hex : fs.path_exists (sd.path.join name.toPath) with
    | false =>
      cases hcv : convert_name_to_path sd.path fs name <;> simp [hcv]
    | true =>
      cases hd : fs.isDir (sd.path.join name.toPath) <;> simp [hd]

/-- The result of a successful `exclude_source_file`. -/
theorem exclude_source_file_eq (sd : SourceDirectory) (fs : FS) (name : NameArg)
    (d : SourceDoc) (h : sd.create_source_doc fs name = .ok d) :
    sd.exclude_source_file fs name = .ok (sd.exclude_result fs d) := by
  unfold SourceDirectory.exclude_source_file SourceDirectory.exclude_result
  rw [h]
  by_cases hf : fs.isFile d.path
  · simp [hf, removeAll_cons, removeAll_nil]
  · by_cases hd : fs.isDir d.path
    · simp [hf, hd, removeAll_filter_under]
    · simp [hf, hd, removeAll_nil]

/-- C1 (amended): `load_source_file` and `exclude_source_file` raise the
containment `ValueError` exactly when the path formed by joining the name to
the source root is not lexically contained in the root; however a path
resolved without error need not be a descendant of the directory being
searched (see the counterexample). -/
theorem c1_containment (sd : SourceDirectory) (fs : FS) (name : NameArg) :
    (sd.load_source_file fs name = .error .valueError ↔
      (sd.path.join name.toPath).isRelativeTo sd.path = false) ∧
    (sd.exclude_source_file fs name = .error .valueError ↔
      (sd.path.join name.toPath).isRelativeTo sd.path = false) := by
  have hcv := create_valueError_iff sd fs name
  cases hc : sd.create_source_doc fs name with
  | error e =>
    rw [hc] at hcv
    have hl : sd.load_source_file fs name = .error e := by
      simp only [SourceDirectory.load_source_file, hc]
    have he : sd.exclude_source_file fs name = .error e := by
      simp only [SourceDirectory.exclude_source_file, hc]
    have hev : e = PyErr.valueError ↔
        (sd.path.join name.toPath).isRelativeTo sd.path = false := by
      simpa using hcv
    constructor
    · rw [hl]; simpa using hev
    · rw [he]; simpa using hev
  | ok d =>
    rw [hc] at hcv
    have hnotrel : (sd.path.join name.toPath).isRelativeTo sd.path ≠ false := by
      intro hrel
      exact Except.noConfusion (hcv.mpr hrel)
    constructor
    · constructor
      · intro h
        exfalso
        simp only [SourceDirectory.load_source_file, hc] at h
        by_cases hf : fs.isFile d.path = true
        · rw [if_pos hf] at h
          cases hsf : sd.source_files? <;> simp [hsf] at h
        · rw [if_neg hf] at h
          exact Except.noConfusion h
      · intro hrel
        exact absurd hrel hnotrel
    · constructor
      · intro h
        rw [exclude_source_file_eq sd fs name d hc] at h
        exact Except.noConfusion h
      · intro hrel
        exact absurd hrel hnotrel

/-- C1 counterexample: with source root `src`, the `Path`-typed name `x`
(whose joined path `src/x` does not exist) is resolved to the path `x`
itself; `load_source_file` succeeds — `x` is a file — and loads a doc whose
path is not a descendant of the root. -/
theorem c1_counterexample :
    (⟨⟨false, ["src"]⟩, "rfw", none⟩ : SourceDirectory).load_source_file
        ⟨[⟨false, ["x"]⟩], [⟨false, ["src"]⟩], []⟩ (.path ⟨false, ["x"]⟩)
      = .ok ⟨⟨false, ["src"]⟩, "rfw", some [⟨⟨false, ["x"]⟩, "rfw"⟩]⟩ ∧
    PyPath.isRelativeTo ⟨false, ["x"]⟩ ⟨false, ["src"]⟩ = false :=
  ⟨rfl, rfl⟩

/-- C2: on a string name holding at least one dot, `convert_name_to_path`
strips a leading dot and retries; otherwise it replaces the dots with path
separators under the source root and returns the first existing candidate
among the path as-is, with the `.py` suffix, then with the `.robot`
suffix. -/
theorem c2_convert_dotted (root : PyPath) (fs : FS) (c : Char) (rest : List Char)
    (hdot : 0 < (c :: rest).count '.') :
    (c = '.' → convert_name_str root fs (c :: rest) = convert_name_str root fs rest) ∧
    (c ≠ '.' → convert_name_str root fs (c :: rest) =
      (dotted_candidates root (c :: rest)).find? fs.path_exists) := by
  constructor
  · intro hc
    simp only [convert_name_str, if_pos hdot, if_pos hc]
  · intro hc
    simp only [convert_name_str, if_pos hdot, if_neg hc, dotted_candidates]
    cases h1 : fs.path_exists (root.join (parsePath (replaceDots (c :: rest)))) <;>
      cases h2 : fs.path_exists
          ((root.join (parsePath (replaceDots (c :: rest)))).withSuffix ".py") <;>
      cases h3 : fs.path_exists
          ((root.join (parsePath (replaceDots (c :: rest)))).withSuffix ".robot") <;>
      simp [List.find?, h1, h2, h3]

/-- Witness for C2 at the name `a.b` over a filesystem where only the `.py`
candidate exists. -/
theorem c2_witness :
    0 < ('a' :: '.' :: ['b']).count '.' ∧
    convert_name_str ⟨false, ["r"]⟩
        ⟨[⟨false, ["r", "a", "b.py"]⟩], [⟨false, ["r"]⟩, ⟨false, ["r", "a"]⟩], []⟩
        ('a' :: '.' :: ['b']) =
      (dotted_candidates ⟨false, ["r"]⟩ ('a' :: '.' :: ['b'])).find?
        (FS.path_exists ⟨[⟨false, ["r", "a", "b.py"]⟩], [⟨false, ["r"]⟩, ⟨false, ["r", "a"]⟩], []⟩) :=
  ⟨by decide,
    (c2_convert_dotted ⟨false, ["r"]⟩
        ⟨[⟨false, ["r", "a", "b.py"]⟩], [⟨false, ["r"]⟩, ⟨false, ["r", "a"]⟩], []⟩
        'a' ['.', 'b'] (by decide)).2 (by decide)⟩

/-- C3 (amended): whenever the resolved doc's path is a file,
`load_source_file` appends it to the working list unconditionally — with no
membership check — so loading the same name twice duplicates the entry. -/
theorem c3_load_appends (sd : SourceDirectory) (fs : FS) (name : NameArg)
    (d : SourceDoc) (h : sd.create_source_doc fs name = .ok d)
    (hf : fs.isFile d.path = true) :
    sd.load_source_file fs name =
      .ok ⟨sd.path, sd.documentation_type, some (sd.source_files?.getD [] ++ [d])⟩ := by
  simp only [SourceDirectory.load_source_file, h]
  rw [if_pos hf]
  cases hsf : sd.source_files? <;> simp [hsf]

/-- Witness for C3's appending behaviour on a one-file directory. -/
theorem c3_witness :
    (⟨⟨false, ["r"]⟩, "rfw", none⟩ : SourceDirectory).load_source_file
        ⟨[⟨false, ["r", "a.py"]⟩], [⟨false, ["r"]⟩], []⟩ (.path ⟨false, ["a.py"]⟩)
      = .ok ⟨⟨false, ["r"]⟩, "rfw", some [⟨⟨false, ["r", "a.py"]⟩, "rfw"⟩]⟩ :=
  c3_load_appends ⟨⟨false, ["r"]⟩, "rfw", none⟩
    ⟨[⟨false, ["r", "a.py"]⟩], [⟨false, ["r"]⟩], []⟩ (.path ⟨false, ["a.py"]⟩)
    ⟨⟨false, ["r", "a.py"]⟩, "rfw"⟩ rfl rfl

/-- C3 counterexample: loading the same name twice stores the same doc
twice — the working set ends with a duplicate, refuting the only-if-absent
append. -/
theorem c3_counterexample :
    ((⟨⟨false, ["r"]⟩, "rfw", none⟩ : SourceDirectory).load_source_file
        ⟨[⟨false, ["r", "a.py"]⟩], [⟨false, ["r"]⟩], []⟩ (.path ⟨false, ["a.py"]⟩)
      = .ok ⟨⟨false, ["r"]⟩, "rfw", some [⟨⟨false, ["r", "a.py"]⟩, "rfw"⟩]⟩) ∧
    ((⟨⟨false, ["r"]⟩, "rfw", some [⟨⟨false, ["r", "a.py"]⟩, "rfw"⟩]⟩ : SourceDirectory).load_source_file
        ⟨[⟨false, ["r", "a.py"]⟩], [⟨false, ["r"]⟩], []⟩ (.path ⟨false, ["a.py"]⟩)
      = .ok ⟨⟨false, ["r"]⟩, "rfw",
          some [⟨⟨false, ["r", "a.py"]⟩, "rfw"⟩, ⟨⟨false, ["r", "a.py"]⟩, "rfw"⟩]⟩) ∧
    pathCount [⟨⟨false, ["r", "a.py"]⟩, "rfw"⟩, ⟨⟨false, ["r", "a.py"]⟩, "rfw"⟩]
      ⟨false, ["r", "a.py"]⟩ = 2 :=
  ⟨rfl, rfl, rfl⟩

/-- C4: `exclude_source_file` resolves the name; when the resolved path is a
file it removes that doc from the working list (the first occurrence with
that path, hence all of it when the working set holds no duplicate); when the
resolved path is a directory it removes exactly the working docs whose path
is a descendant of it, so afterwards no working doc lies under the excluded
directory. -/
theorem c4_exclude_file_and_dir (sd : SourceDirectory) (fs : FS) (name : NameArg)
    (d : SourceDoc) (h : sd.create_source_doc fs name = .ok d) :
    (fs.isFile d.path = true →
      sd.exclude_source_file fs name =
        .ok ⟨sd.path, sd.documentation_type,
          some (erasePath (sd.source_files_list fs) d.path)⟩ ∧
      (pathCount (sd.source_files_list fs) d.path ≤ 1 →
        ∀ f ∈ erasePath (sd.source_files_list fs) d.path, f.path ≠ d.path)) ∧
    (fs.isFile d.path = false → fs.isDir d.path = true →
      sd.exclude_source_file fs name =
        .ok ⟨sd.path, sd.documentation_type,
          some ((sd.source_files_list fs).filter
            (fun f => !(f.path.isRelativeTo d.path)))⟩ ∧
      ∀ f ∈ (sd.source_files_list fs).filter (fun f => !(f.path.isRelativeTo d.path)),
        f.path.isRelativeTo d.path = false) := by
  have hex := exclude_source_file_eq sd fs name d h
  constructor
  · intro hf
    refine ⟨?_, fun hcount => erasePath_no_path _ _ hcount⟩
    rw [hex]
    unfold SourceDirectory.exclude_result
    rw [if_pos hf]
  · intro hf hd
    constructor
    · rw [hex]
      unfold SourceDirectory.exclude_result
      rw [if_neg (by simp [hf]), if_pos hd]
    · intro f hfmem
      have hmem := (List.mem_filter.mp hfmem).2
      simpa using hmem

/-- Witness for C4's file branch: excluding the single loaded file empties
the working list. -/
theorem c4_witness :
    (⟨⟨false, ["r"]⟩, "rfw", some [⟨⟨false, ["r", "a.py"]⟩, "rfw"⟩]⟩ : SourceDirectory).exclude_source_file
        ⟨[⟨false, ["r", "a.py"]⟩], [⟨false, ["r"]⟩], []⟩ (.path ⟨false, ["a.py"]⟩)
      = .ok ⟨⟨false, ["r"]⟩, "rfw", some []⟩ :=
  ((c4_exclude_file_and_dir
      ⟨⟨false, ["r"]⟩, "rfw", some [⟨⟨false, ["r", "a.py"]⟩, "rfw"⟩]⟩
      ⟨[⟨false, ["r", "a.py"]⟩], [⟨false, ["r"]⟩], []⟩ (.path ⟨false, ["a.py"]⟩)
      ⟨⟨false, ["r", "a.py"]⟩, "rfw"⟩ rfl).1 rfl).1

/-- C5 (amended): once the name resolves, `exclude_source_file` never raises
(removal of an absent doc is caught and logged), and it is idempotent
provided the working set holds at most one entry for the excluded file —
duplicate entries, which unconditional loading can create, break
idempotence. -/
theorem c5_exclude_idempotent (sd : SourceDirectory) (fs : FS) (name : NameArg)
    (d : SourceDoc) (h : sd.create_source_doc fs name = .ok d)
    (hdup : fs.isFile d.path = true → pathCount (sd.source_files_list fs) d.path ≤ 1) :
    sd.exclude_source_file fs name = .ok (sd.exclude_result fs d) ∧
    (sd.exclude_result fs d).exclude_source_file fs name = .ok (sd.exclude_result fs d) := by
  refine ⟨exclude_source_file_eq sd fs name d h, ?_⟩
  obtain ⟨p, t, o⟩ := sd
  have hcreate2 : (SourceDirectory.exclude_result ⟨p, t, o⟩ fs d).create_source_doc fs name
      = .ok d :=
    (create_source_doc_path_only p t t _ o fs name).trans h
  rw [exclude_source_file_eq _ fs name d hcreate2]
  congr 1
  have hlist : ∀ L : List SourceDoc,
      SourceDirectory.source_files_list ⟨p, t, some L⟩ fs = L := fun _ => rfl
  by_cases hf : fs.isFile d.path = true
  · have hres : SourceDirectory.exclude_result ⟨p, t, o⟩ fs d
        = ⟨p, t, some (erasePath (SourceDirectory.source_files_list ⟨p, t, o⟩ fs) d.path)⟩ := by
      unfold SourceDirectory.exclude_result
      rw [if_pos hf]
    have hzero : pathCount
        (erasePath (SourceDirectory.source_files_list ⟨p, t, o⟩ fs) d.path) d.path = 0 := by
      rw [pathCount_erasePath]
      have hle := hdup hf
      omega
    rw [hres]
    unfold SourceDirectory.exclude_result
    rw [if_pos hf, hlist]
    rw [erasePath_of_pathCount_zero _ _ hzero]
  · by_cases hd : fs.isDir d.path = true
    · have hres : SourceDirectory.exclude_result ⟨p, t, o⟩ fs d
          = ⟨p, t, some ((SourceDirectory.source_files_list ⟨p, t, o⟩ fs).filter
              (fun f => !(f.path.isRelativeTo d.path)))⟩ := by
        unfold SourceDirectory.exclude_result
        rw [if_neg hf, if_pos hd]
      rw [hres]
      unfold SourceDirectory.exclude_result
      rw [if_neg hf, if_pos hd, hlist]
      rw [List.filter_filter]
      simp
    · have hres : SourceDirectory.exclude_result ⟨p, t, o⟩ fs d
          = ⟨p, t, some (SourceDirectory.source_files_list ⟨p, t, o⟩ fs)⟩ := by
        unfold SourceDirectory.exclude_result
        rw [if_neg hf, if_neg hd]
      rw [hres]
      unfold SourceDirectory.exclude_result
      rw [if_neg hf, if_neg hd, hlist]

/-- Witness for C5 on a duplicate-free working list. -/
theorem c5_witness :
    (⟨⟨false, ["r"]⟩, "rfw", some [⟨⟨false, ["r", "a.py"]⟩, "rfw"⟩]⟩ : SourceDirectory).exclude_source_file
        ⟨[⟨false, ["r", "a.py"]⟩], [⟨false, ["r"]⟩], []⟩ (.path ⟨false, ["a.py"]⟩)
      = .ok ⟨⟨false, ["r"]⟩, "rfw", some []⟩ ∧
    (⟨⟨false, ["r"]⟩, "rfw", some []⟩ : SourceDirectory).exclude_source_file
        ⟨[⟨false, ["r", "a.py"]⟩], [⟨false, ["r"]⟩], []⟩ (.path ⟨false, ["a.py"]⟩)
      = .ok ⟨⟨false, ["r"]⟩, "rfw", some []⟩ :=
  c5_exclude_idempotent
    ⟨⟨false, ["r"]⟩, "rfw", some [⟨⟨false, ["r", "a.py"]⟩, "rfw"⟩]⟩
    ⟨[⟨false, ["r", "a.py"]⟩], [⟨false, ["r"]⟩], []⟩ (.path ⟨false, ["a.py"]⟩)
    ⟨⟨false, ["r", "a.py"]⟩, "rfw"⟩ rfl (fun _ => by decide)

/-- C5 counterexample: after loading the same file twice (which the code
permits), one exclusion leaves one duplicate behind and a second exclusion
removes it — calling `exclude_source_file` twice does not equal calling it
once on that working-set state. -/
theorem c5_counterexample :
    ((⟨⟨false, ["r"]⟩, "rfw", some [⟨⟨false, ["r", "a.py"]⟩, "rfw"⟩,
        ⟨⟨false, ["r", "a.py"]⟩, "rfw"⟩]⟩ : SourceDirectory).exclude_source_file
        ⟨[⟨false, ["r", "a.py"]⟩], [⟨false, ["r"]⟩], []⟩ (.path ⟨false, ["a.py"]⟩)
      = .ok ⟨⟨false, ["r"]⟩, "rfw", some [⟨⟨false, ["r", "a.py"]⟩, "rfw"⟩]⟩) ∧
    ((⟨⟨false, ["r"]⟩, "rfw", some [⟨⟨false, ["r", "a.py"]⟩, "rfw"⟩]⟩ : SourceDirectory).exclude_source_file
        ⟨[⟨false, ["r", "a.py"]⟩], [⟨false, ["r"]⟩], []⟩ (.path ⟨false, ["a.py"]⟩)
      = .ok ⟨⟨false, ["r"]⟩, "rfw", some []⟩) ∧
    (⟨⟨false, ["r"]⟩, "rfw", some [⟨⟨false, ["r", "a.py"]⟩, "rfw"⟩]⟩ : SourceDirectory)
      ≠ ⟨⟨false, ["r"]⟩, "rfw", some []⟩ :=
  ⟨rfl, rfl, by decide⟩

/-- C6 (amended): the first access to `source_files` yields exactly the
filesystem entries strictly under the root whose suffix is recognized — but
entries, not only files: a directory carrying a recognized suffix is
included as well. -/
theorem c6_source_files_first_access (sd : SourceDirectory) (fs : FS)
    (h : sd.source_files? = none) (p : PyPath) :
    p ∈ (sd.source_files_list fs).map SourceDoc.path ↔
      ((p ∈ fs.files ∨ p ∈ fs.dirs) ∧ p.isRelativeTo sd.path = true ∧ p ≠ sd.path ∧
        p.suffix ∈ SOURCE_LANGUAGES.map Prod.fst) := by
  simp only [SourceDirectory.source_files_list, h, FS.glob, List.map_map]
  rw [show (SourceDoc.path ∘ fun q => (⟨q, sd.documentation_type⟩ : SourceDoc)) = id from rfl]
  rw [List.map_id]
  simp only [List.mem_filter, List.mem_append, Bool.and_eq_true, decide_eq_true_eq]
  tauto

/-- A directory tree holding recognized-suffix files, a plain text file, and
a subdirectory whose name carries a recognized suffix. -/
def exampleTreeFS : FS :=
  ⟨[⟨false, ["r", "a.py"]⟩, ⟨false, ["r", "sub", "b.robot"]⟩, ⟨false, ["r", "c.txt"]⟩],
   [⟨false, ["r"]⟩, ⟨false, ["r", "sub"]⟩, ⟨false, ["r", "d.py"]⟩], []⟩

/-- Witness for C6 at the recognized file `r/a.py`. -/
theorem c6_witness :
    ⟨false, ["r", "a.py"]⟩ ∈
        ((⟨⟨false, ["r"]⟩, "rfw", none⟩ : SourceDirectory).source_files_list
          exampleTreeFS).map SourceDoc.path ↔
      ((⟨false, ["r", "a.py"]⟩ ∈ exampleTreeFS.files ∨
          ⟨false, ["r", "a.py"]⟩ ∈ exampleTreeFS.dirs) ∧
        PyPath.isRelativeTo ⟨false, ["r", "a.py"]⟩ ⟨false, ["r"]⟩ = true ∧
        (⟨false, ["r", "a.py"]⟩ : PyPath) ≠ ⟨false, ["r"]⟩ ∧
        PyPath.suffix ⟨false, ["r", "a.py"]⟩ ∈ SOURCE_LANGUAGES.map Prod.fst) :=
  c6_source_files_first_access ⟨⟨false, ["r"]⟩, "rfw", none⟩ exampleTreeFS rfl
    ⟨false, ["r", "a.py"]⟩

/-- C6 counterexample: the first access also yields the directory `r/d.py`
(a non-file entry), refuting "exactly the recognized-suffix files and no
other entries". -/
theorem c6_counterexample :
    (⟨⟨false, ["r"]⟩, "rfw", none⟩ : SourceDirectory).source_files_list exampleTreeFS
      = [⟨⟨false, ["r", "a.py"]⟩, "rfw"⟩, ⟨⟨false, ["r", "sub", "b.robot"]⟩, "rfw"⟩,
          ⟨⟨false, ["r", "d.py"]⟩, "rfw"⟩] ∧
    exampleTreeFS.isFile ⟨false, ["r", "d.py"]⟩ = false ∧
    exampleTreeFS.isDir ⟨false, ["r", "d.py"]⟩ = true :=
  ⟨rfl, rfl, rfl⟩

/-- C7 (code bug): on a component whose content is the template
`{a} and {b}`, `get_template_fields` raises `TypeError` — the source calls
`Formatter.parse` unbound, binding the content to `self` and omitting
`format_string` — whereas the field extraction the claim describes would
return the placeholder names `a` and `b`. -/
theorem c7_get_template_fields_raises :
    Component.get_template_fields ⟨⟨false, ["tmpl.txt"]⟩, "rfw", some "{a} and {b}"⟩
      = .error .typeError ∧
    formatFieldNames "{a} and {b}".toList = ["a", "b"] ∧
    formatFieldNames "{{x}} {a:>3} {} {b!r}".toList = ["a", "b"] :=
  ⟨rfl, rfl, rfl⟩

/-- C8 (amended): `Source` construction validates only `documentation_type`
against the allow-list, case-insensitively: an allow-listed value is stored
as given, a missing value defaults to the keyword-library type `"rfw"`, and
any other value raises the descriptive `ValueError`.  There is no
`documentation_format` parameter: such a keyword is forwarded to `Path`,
which accepts and ignores it, so the keyword arguments never influence the
outcome and no format allow-list is enforced. -/
theorem c8_source_init (p : PyPath) (dt : Option String) (kw : List (String × String)) :
    (∀ t, dt = some t → strLower t ∈ VALID_DOC_TYPES →
      Source.init p dt kw = .ok ⟨p, t⟩) ∧
    (dt = none → Source.init p dt kw = .ok ⟨p, "rfw"⟩) ∧
    (∀ t, dt = some t → strLower t ∉ VALID_DOC_TYPES →
      Source.init p dt kw = .error .valueError) ∧
    (∀ kw', Source.init p dt kw' = Source.init p dt kw) := by
  refine ⟨?_, ?_, ?_, ?_⟩
  · intro t ht hv
    subst ht
    simp [Source.init, hv]
  · intro ht
    subst ht
    simp [Source.init]
  · intro t ht hv
    subst ht
    simp [Source.init, hv]
  · intro kw'
    cases dt <;> rfl

/-- Witness for C8: an allow-listed type constructs successfully even with a
`documentation_format` keyword present. -/
theorem c8_witness :
    Source.init ⟨false, ["x"]⟩ (some "python") [("documentation_format", "libspec")]
      = .ok ⟨⟨false, ["x"]⟩, "python"⟩ :=
  (c8_source_init ⟨false, ["x"]⟩ (some "python")
    [("documentation_format", "libspec")]).1 "python" rfl (by decide)

/-- C8 counterexample: a `documentation_format` keyword whose value lies
outside any fixed allow-list is silently ignored — construction succeeds
instead of raising the claimed descriptive error, with a provided or a
defaulted `documentation_type` alike. -/
theorem c8_counterexample :
    Source.init ⟨false, ["x"]⟩ (some "python")
        [("documentation_format", "###not-a-format###")]
      = .ok ⟨⟨false, ["x"]⟩, "python"⟩ ∧
    Source.init ⟨false, ["x"]⟩ none [("documentation_format", "###not-a-format###")]
      = .ok ⟨⟨false, ["x"]⟩, "rfw"⟩ :=
  ⟨rfl, rfl⟩

/-- C9: `content` reads from disk at most once — a successful access returns
the text, caches it, and every later access (over any filesystem state, even
one where the file changed or disappeared) returns the identical cached
string and the unchanged object. -/
theorem c9_content_cached (sf : SourceFile) (fs : FS) (c : String) (sf' : SourceFile)
    (h : sf.content fs = .ok (c, sf')) :
    sf'.content? = some c ∧
    (sf.content? = none → fs.readText sf.path = some c) ∧
    ∀ fs₂, sf'.content fs₂ = .ok (c, sf') := by
  cases hc : sf.content? with
  | some c0 =>
    simp only [SourceFile.content, hc] at h
    injection h with hpair
    injection hpair with h1 h2
    subst h1
    subst h2
    exact ⟨hc, fun habs => Option.noConfusion habs,
      fun fs₂ => by simp [SourceFile.content, hc]⟩
  | none =>
    simp only [SourceFile.content, hc] at h
    cases hr : fs.readText sf.path with
    | none =>
      rw [hr] at h
      exact Except.noConfusion h
    | some txt =>
      rw [hr] at h
      injection h with hpair
      injection hpair with h1 h2
      subst h1
      subst h2
      exact ⟨rfl, fun _ => rfl, fun fs₂ => by simp [SourceFile.content]⟩

/-- Witness for C9: the cached text survives the file disappearing from the
filesystem. -/
theorem c9_witness :
    (⟨⟨false, ["f.py"]⟩, "rfw", some "hello"⟩ : SourceFile).content ⟨[], [], []⟩
      = .ok ("hello", ⟨⟨false, ["f.py"]⟩, "rfw", some "hello"⟩) :=
  (c9_content_cached ⟨⟨false, ["f.py"]⟩, "rfw", none⟩
      ⟨[⟨false, ["f.py"]⟩], [], [(⟨false, ["f.py"]⟩, "hello")]⟩ "hello"
      ⟨⟨false, ["f.py"]⟩, "rfw", some "hello"⟩ rfl).2.2 ⟨[], [], []⟩

/-- C10: for the dotted name `a.b` over a root where neither `a/b`, `a/b.py`,
`a/b.robot` nor a literal `a.b` entry exists, `convert_name_to_path` returns
`None`, so `load_source_file` and `exclude_source_file` fail with `TypeError`
(from `Path(None)`) rather than the containment `ValueError`. -/
theorem c10_dotted_name_type_error :
    convert_name_to_path ⟨false, ["r"]⟩ ⟨[⟨false, ["r", "z.py"]⟩], [⟨false, ["r"]⟩], []⟩
        (.str ('a' :: '.' :: ['b'])) = none ∧
    (⟨⟨false, ["r"]⟩, "rfw", none⟩ : SourceDirectory).load_source_file
        ⟨[⟨false, ["r", "z.py"]⟩], [⟨false, ["r"]⟩], []⟩ (.str ('a' :: '.' :: ['b']))
      = .error .typeError ∧
    (⟨⟨false, ["r"]⟩, "rfw", none⟩ : SourceDirectory).exclude_source_file
        ⟨[⟨false, ["r", "z.py"]⟩], [⟨false, ["r"]⟩], []⟩ (.str ('a' :: '.' :: ['b']))
      = .error .typeError ∧
    PyErr.typeError ≠ PyErr.valueError :=
  ⟨rfl, rfl, rfl, by decide⟩

end Documenter

